import Mathlib

/-!
Shallow embedding of the Assessment Aggregation and Radial Layout core of the
Implementation-Scorecard repository, together with proofs checking the
natural-language specification against it.

Modelling conventions:
* JavaScript numbers are modelled as `JNum`: either `NaN` or an exact integer.
  All numeric row fields in this application are integer-valued; arithmetic on
  means is carried out in `ℚ`, which is exact for the sums and divisions the
  code performs.
* Loosely typed JavaScript values (the fields of a raw row) are modelled as
  `JVal`: `null`/`undefined` collapse to `JVal.vnull`, strings to `JVal.vstr`,
  numbers to `JVal.vnum`.
* `String(n)` for an integer JavaScript number is modelled digit by digit
  (see `natDigitChars`), matching the decimal rendering JavaScript produces
  for the integer range this application works in.
* `Number(s)` for a string is modelled by `jnumOfString`: trimmed empty string
  is 0, an optional sign followed by digits parses exactly, anything else is
  `NaN` (the model omits fractional, exponent and hex literals, which never
  arise in this application's data).
-/

namespace Scorecard

/-- JavaScript number: NaN or an exact integer. -/
inductive JNum where
  | nan : JNum
  | int : ℤ → JNum
deriving DecidableEq, Repr

/-- Loosely typed JavaScript value as it appears in a raw row field. -/
inductive JVal where
  | vnull : JVal
  | vnum : JNum → JVal
  | vstr : String → JVal
deriving DecidableEq, Repr

/-- Lower-casing of one ASCII character, as JS `toLowerCase` acts on the
ASCII labels this application uses. -/
def jsCharLower (c : Char) : Char :=
  if 65 ≤ c.toNat ∧ c.toNat ≤ 90 then Char.ofNat (c.toNat + 32) else c

/-- Models JS `s.toLowerCase()` on the ASCII labels of this application
(structural recursion so that concrete inputs evaluate). -/
def jsToLower (s : String) : String :=
  String.mk (s.data.map jsCharLower)

/-- Models JS `s.startsWith(pre)`. -/
def jsStartsWith (s pre : String) : Bool :=
  pre.data.isPrefixOf s.data

/-- Numeric value of a most-significant-first digit-character list, as JS
`Number` computes it on a pure digit run. -/
def natOfDigits (ds : List Char) : ℕ :=
  ds.foldl (fun n c => 10 * n + (c.toNat - 48)) 0

/-- Base-10 digits of `n`, least significant first, with an explicit fuel
argument so the recursion is structural and evaluates in the kernel. -/
def digitsRun : ℕ → ℕ → List ℕ
  | _, 0 => []
  | 0, _ + 1 => []
  | fuel + 1, n + 1 => ((n + 1) % 10) :: digitsRun fuel ((n + 1) / 10)

/-- Decimal digit characters of `n`, most significant first. -/
def natDigitChars (n : ℕ) : List Char :=
  if n = 0 then [Char.ofNat 48]
  else ((digitsRun n n).map (fun d => Char.ofNat (48 + d))).reverse

/-- Models JavaScript `String(n)` for a number `n`. -/
def jnumToString : JNum → String
  | JNum.nan => "NaN"
  | JNum.int z =>
      if z < 0 then String.mk (Char.ofNat 45 :: natDigitChars z.natAbs)
      else String.mk (natDigitChars z.natAbs)

/-- First maximal run of decimal digits in a character list; models the first
match of the regular expression for a digit run. -/
def digitRunAux : List Char → Option (List Char)
  | [] => none
  | c :: cs =>
      if c.isDigit then some (c :: cs.takeWhile Char.isDigit)
      else digitRunAux cs

/-- First run of digits in a string, or `none` when the string has no digit. -/
def digitRun? (s : String) : Option (List Char) :=
  digitRunAux s.toList

/-- Whitespace as JavaScript `Number` strips it around a numeric literal. -/
def isJsSpace (c : Char) : Bool :=
  c = Char.ofNat 32 || c = Char.ofNat 9 || c = Char.ofNat 10 || c = Char.ofNat 13

/-- Strips leading and trailing whitespace from a character list. -/
def trimChars (L : List Char) : List Char :=
  ((L.dropWhile isJsSpace).reverse.dropWhile isJsSpace).reverse

/-- Models JS `s.trim()`. -/
def jsTrim (s : String) : String :=
  String.mk (trimChars s.data)

/-- Models JavaScript `Number(s)` on a string (integer literals only; see the
module comment): the trimmed empty string is 0, an optional sign followed by
digits parses exactly, anything else is NaN. -/
def jnumOfTrimmed : List Char → JNum
  | [] => JNum.int 0
  | c :: ds =>
      if c = Char.ofNat 45 then
        if ds ≠ [] ∧ ds.all Char.isDigit then JNum.int (-(natOfDigits ds))
        else JNum.nan
      else if c = Char.ofNat 43 then
        if ds ≠ [] ∧ ds.all Char.isDigit then JNum.int (natOfDigits ds)
        else JNum.nan
      else if (c :: ds).all Char.isDigit then JNum.int (natOfDigits (c :: ds))
      else JNum.nan

/-- See the comment on `jnumOfTrimmed`. -/
def jnumOfString (s : String) : JNum :=
  jnumOfTrimmed (trimChars s.toList)

/-- Models JavaScript `String(v)` on a non-null row value. -/
def jvalToString : JVal → String
  | JVal.vnull => "null"
  | JVal.vnum j => jnumToString j
  | JVal.vstr s => s

/-- Models the expression `(v ?? "").toString()`. -/
def jvalOrEmptyToString : JVal → String
  | JVal.vnull => ""
  | v => jvalToString v

/-- Models JavaScript `Number(v)` on a non-null row value. -/
def jvalToNumber : JVal → JNum
  | JVal.vnull => JNum.int 0
  | JVal.vnum j => j
  | JVal.vstr s => jnumOfString s

/-- Models `Number(String(v).match(digit-run)?.[0] ?? v)`: numeric value of the
first digit run of the stringified value, falling back to plain numeric
coercion of the value when it has no digit. -/
def digitNumberOf (v : JVal) : JNum :=
  match digitRun? (jvalToString v) with
  | some ds => JNum.int (natOfDigits ds)
  | none => jvalToNumber v

/-- Substring test on character lists (used to model `String.includes`). -/
def listContainsSub (pat : List Char) : List Char → Bool
  | [] => pat.isEmpty
  | c :: cs => pat.isPrefixOf (c :: cs) || listContainsSub pat cs

/-- Models JavaScript `s.includes(pat)`. -/
def strIncludes (s pat : String) : Bool :=
  listContainsSub pat.toList s.toList

/-!
Embedding of `frontend/app/components/scorecard-viz.tsx`: the row type, the
canonical dimension table, sector and dimension canonicalization, and the cell
aggregator `makeCells`.
-/
namespace Viz

/-- The `QuestionnaireRow` record of scorecard-viz.tsx; every field is
optional per its TypeScript type. -/
structure QuestionnaireRow where
  sdg_number : Option Scorecard.JNum := none
  sdg_description : Option String := none
  sector : Option String := none
  sdg_target : Option String := none
  sustainability_dimension : Option String := none
  kpi : Option String := none
  question : Option String := none
  score : Option Scorecard.JNum := none
  score_description : Option String := none
  source : Option String := none
  notes : Option String := none
  status : Option String := none
  comment : Option String := none
deriving DecidableEq, Repr

/-- One entry of the `DIMENSIONS` constant table. -/
structure DimMeta where
  key : String
  color : String
  shortKey : String
deriving DecidableEq, Repr

/-- The `DIMENSIONS` table, in its source order: Economic, Circular,
Environmental, Social. -/
def DIMENSIONS : List DimMeta :=
  [ { key := "Economic Performance", color := "#DC2626", shortKey := "Economic" },
    { key := "Circular Performance", color := "#FFB800", shortKey := "Circular" },
    { key := "Environmental Performance", color := "#27AE60", shortKey := "Environmental" },
    { key := "Social Performance", color := "#3498DB", shortKey := "Social" } ]

/-- The `canonicalSector` helper: falsy input gives null, otherwise substring
tests on the lower-cased label, otherwise the label is passed through. -/
def canonicalSector : Option String → Option String
  | none => none
  | some s =>
      if s = "" then none
      else
        let t := Scorecard.jsToLower s
        if Scorecard.strIncludes t ("textile") then some ("Textiles")
        else if Scorecard.strIncludes t ("fertil") then some ("Fertilizers")
        else if Scorecard.strIncludes t ("pack") then some ("Packaging")
        else some s

/-- The `canonicalDim` helper: prefix match on the lower-cased label, then an
exact case-insensitive match against the canonical keys, otherwise null. -/
def canonicalDim : Option String → Option String
  | none => none
  | some s =>
      if s = "" then none
      else
        let t := Scorecard.jsToLower s
        if Scorecard.jsStartsWith t ("econ") then some ("Economic Performance")
        else if Scorecard.jsStartsWith t ("circ") then some ("Circular Performance")
        else if Scorecard.jsStartsWith t ("env") then some ("Environmental Performance")
        else if Scorecard.jsStartsWith t ("soc") then some ("Social Performance")
        else (DIMENSIONS.find? (fun d => Scorecard.jsToLower d.key = t)).map DimMeta.key

/-- One bucket of the `makeCells` grouping map. -/
structure Bucket where
  sum : ℤ
  n : ℕ
  items : List QuestionnaireRow
deriving DecidableEq, Repr

/-- The empty bucket inserted on first sight of a key. -/
def emptyBucket : Bucket := { sum := 0, n := 0, items := [] }

/-- Grouping key of a row inside `makeCells`, or `none` when the row is
skipped. The source key is the string of the goal number and the dimension key
joined by a pipe; since the dimension keys contain no pipe and no digit and the
goal part is the decimal form of a number, that string key is injective in the
pair, which this model represents directly. A row is skipped when
`Number(sdg_number ?? 0)` is falsy (0 or NaN) or its dimension does not
canonicalize. -/
def rowKey (r : QuestionnaireRow) : Option (ℤ × String) :=
  match r.sdg_number.getD (Scorecard.JNum.int 0), canonicalDim r.sustainability_dimension with
  | Scorecard.JNum.int z, some d => if z = 0 then none else some (z, d)
  | _, _ => none

/-- Adds one row to a bucket: a finite score joins the running sum and count,
and the row always joins the item list. -/
def pushRow (r : QuestionnaireRow) (b : Bucket) : Bucket :=
  let b1 :=
    match r.score with
    | some (Scorecard.JNum.int z) => { b with sum := b.sum + z, n := b.n + 1 }
    | _ => b
  { b1 with items := b1.items ++ [r] }

/-- Updates the association list standing for the JS `Map`: push onto the
existing bucket for the key, or append a fresh bucket. -/
def updateBuckets (k : ℤ × String) (r : QuestionnaireRow) :
    List ((ℤ × String) × Bucket) → List ((ℤ × String) × Bucket)
  | [] => [(k, pushRow r emptyBucket)]
  | (k0, b0) :: rest =>
      if k0 = k then (k0, pushRow r b0) :: rest
      else (k0, b0) :: updateBuckets k r rest

/-- The loop body of the `makeCells` grouping pass: a row with no key is
skipped, otherwise its bucket is updated. -/
def stepB (acc : List ((ℤ × String) × Bucket)) (r : QuestionnaireRow) :
    List ((ℤ × String) × Bucket) :=
  match rowKey r with
  | none => acc
  | some k => updateBuckets k r acc

/-- The grouping loop of `makeCells` over the sector-filtered rows. -/
def buildBuckets (rows : List QuestionnaireRow) : List ((ℤ × String) × Bucket) :=
  rows.foldl stepB []

/-- Lookup in the association list standing for the JS `Map`. -/
def lookupBucket : List ((ℤ × String) × Bucket) → (ℤ × String) → Option Bucket
  | [], _ => none
  | (k0, b) :: rest, k => if k0 = k then some b else lookupBucket rest k

/-- Models JavaScript `Math.round`: nearest integer, ties toward positive
infinity. -/
def jround (q : ℚ) : ℤ := ⌊q + 1 / 2⌋

/-- An aggregated cell. -/
structure Cell where
  sdg : ℤ
  dim : String
  score : ℤ
  count : ℕ
  items : List QuestionnaireRow
deriving DecidableEq, Repr

/-- Emission of one cell from the grouping map: absent or empty buckets give
average 0, and the average is rounded with `Math.round`. -/
def mkCellFor (bucket : List ((ℤ × String) × Bucket)) (g : ℤ) (d : DimMeta) : Cell :=
  match lookupBucket bucket (g, d.key) with
  | none =>
      { sdg := g, dim := d.key, score := jround 0, count := 0, items := [] }
  | some b =>
      let avgScore : ℚ := if b.n = 0 then 0 else (b.sum : ℚ) / (b.n : ℚ)
      { sdg := g, dim := d.key, score := jround avgScore, count := b.n, items := b.items }

/-- The sector filter of `makeCells`. -/
def keptRows (rows : List QuestionnaireRow) (sector : String) : List QuestionnaireRow :=
  rows.filter (fun r => canonicalSector r.sector = some sector)

/-- The `makeCells` aggregator: filter to the sector, group by goal and
dimension, then emit one cell for every goal 1..17 and every canonical
dimension, goal-major. -/
def makeCells (rows : List QuestionnaireRow) (sector : String) : List Cell :=
  let bucket := buildBuckets (keptRows rows sector)
  (List.range 17).flatMap (fun i =>
    DIMENSIONS.map (fun d => mkCellFor bucket ((i : ℤ) + 1) d))

/-- The goal-major, dimension-minor enumeration of the 68 cell keys. -/
def cellKeys : List (ℤ × String) :=
  (List.range 17).flatMap (fun i => DIMENSIONS.map (fun d => ((i : ℤ) + 1, d.key)))

/-- The rows of a list that fall into the bucket of key `k`. -/
def rowsFor (rows : List QuestionnaireRow) (k : ℤ × String) : List QuestionnaireRow :=
  rows.filter (fun r => rowKey r = some k)

/-- The finite scores of a row list, in order: exactly the values that join a
bucket running sum. -/
def scoreInts (ms : List QuestionnaireRow) : List ℤ :=
  ms.filterMap (fun r =>
    match r.score with
    | some (Scorecard.JNum.int z) => some z
    | _ => none)

/-- Pushing a whole row list onto a bucket, in order. -/
def pushAll (b : Bucket) (ms : List QuestionnaireRow) : Bucket :=
  ms.foldl (fun b r => pushRow r b) b

/-- Combination of an already-present bucket with the rows still to be pushed
for its key; `none` exactly when the key never appears. -/
def combineB (o : Option Bucket) (ms : List QuestionnaireRow) : Option Bucket :=
  match o, ms with
  | none, [] => none
  | o, ms => some (pushAll (o.getD emptyBucket) ms)

/-- Rows whose goal number the aggregator can never bucket into an emitted
cell: null (coerced to 0), 0, NaN, or outside 1..17. -/
def badSdgB (r : QuestionnaireRow) : Bool :=
  match r.sdg_number with
  | none => true
  | some Scorecard.JNum.nan => true
  | some (Scorecard.JNum.int z) => z < 1 || 17 < z

end Viz

/-!
Embedding of `frontend/app/components/FormPage.tsx`: the question catalog row,
sanitization with deduplication, and the page builder.
-/
namespace Form

/-- The `Question` record of FormPage.tsx. -/
structure Question where
  id : String
  sdg_number : ℤ
  sdg_description : String
  sdg_target : String
  sustainability_dimension : String
  kpi : String
  question : String
  sector : String
deriving DecidableEq, Repr

/-- The `DIM_ORDER` constant, in its source order: Circular, Environmental,
Economic, Social (short labels). -/
def DIM_ORDER : List String :=
  ["Circular", "Environmental", "Economic", "Social"]

/-- Membership in `DIM_SET`, the set built from `DIM_ORDER`. -/
def inDimSet (s : String) : Bool := DIM_ORDER.contains s

/-- The `SECTOR_ORDER` constant: the canonical sector iteration order. -/
def SECTOR_ORDER : List String := ["Textiles", "Fertilizers", "Packaging"]

/-- The `norm` helper: trim then lower-case. -/
def normStr (s : String) : String := Scorecard.jsToLower (Scorecard.jsTrim s)

/-- The composite deduplication key of a question. The source joins the three
parts with pipes; since the goal part is the decimal form of a number and the
dimension part is one of four pipe-free words whenever a key is formed, the
string key is injective in the triple, which this model represents directly. -/
def makeKey (q : Question) : String × ℤ × String :=
  (normStr q.sector, q.sdg_number, normStr q.sustainability_dimension)

/-- The `sectorAliases` lookup table. -/
def sectorAlias? (k : String) : Option String :=
  if k = "textile" then some ("Textiles")
  else if k = "textiles" then some ("Textiles")
  else if k = "fertilizer" then some ("Fertilizers")
  else if k = "fertilizers" then some ("Fertilizers")
  else if k = "packaging" then some ("Packaging")
  else none

/-- The FormPage `canonicalSector`: alias table on the normalized label, else
the trimmed label, else the fallback label. -/
def canonicalSector (s : String) : String :=
  match sectorAlias? (normStr s) with
  | some v => v
  | none => if Scorecard.jsTrim s = "" then "General" else Scorecard.jsTrim s

/-- The FormPage `canonicalDim`: the trimmed label when it is in `DIM_SET`,
otherwise the trimmed original (both branches trim the same label). -/
def canonicalDim (d : String) : String :=
  let t := Scorecard.jsTrim d
  if inDimSet t then t else Scorecard.jsTrim d

/-- The `sanitizeQuestions` loop with its `seen` key set carried explicitly:
canonicalize sector and dimension, drop questions whose dimension is not one of
the four short labels, and keep only the first question per composite key. -/
def sanitizeGo (seen : List (String × ℤ × String)) :
    List Question → List Question
  | [] => []
  | q :: rest =>
      let sector := canonicalSector q.sector
      let dim := canonicalDim q.sustainability_dimension
      if inDimSet dim then
        let nq := { q with sector := sector, sustainability_dimension := dim }
        let key := makeKey nq
        if seen.contains key then sanitizeGo seen rest
        else nq :: sanitizeGo (key :: seen) rest
      else sanitizeGo seen rest

/-- The `sanitizeQuestions` entry point. -/
def sanitizeQuestions (qs : List Question) : List Question :=
  sanitizeGo [] qs

/-- The sort rank a question gets from `sortByDim`: its index in `DIM_ORDER`,
or 99 when the dimension is not listed. -/
def dimIdx (q : Question) : ℤ :=
  match DIM_ORDER.indexOf? q.sustainability_dimension with
  | some i => (i : ℤ)
  | none => 99

/-- Stable insertion step for the `sort(sortByDim)` call. -/
def insertByDim (q : Question) : List Question → List Question
  | [] => [q]
  | x :: xs =>
      if dimIdx q < dimIdx x then q :: x :: xs
      else x :: insertByDim q xs

/-- Stable sort by `sortByDim`, modelling the JS stable `Array.sort`. -/
def sortByDimList (qs : List Question) : List Question :=
  qs.foldr insertByDim []

/-- The `pickFourDimsFor` helper: first-seen question per dimension, all four
required, result sorted in `DIM_ORDER`. The source keeps a map keyed by the
dimension label restricted to `DIM_SET`; reading it at a label of `DIM_ORDER`
gives the first question carrying exactly that label, which the four `find?`
calls below reproduce. -/
def pickFourDimsFor (arr : List Question) : Option (List Question) :=
  if arr.length = 0 then none
  else
    match arr.find? (fun q => q.sustainability_dimension = "Circular"),
          arr.find? (fun q => q.sustainability_dimension = "Environmental"),
          arr.find? (fun q => q.sustainability_dimension = "Economic"),
          arr.find? (fun q => q.sustainability_dimension = "Social") with
    | some a, some b, some c, some d => some (sortByDimList [a, b, c, d])
    | _, _, _, _ => none

/-- The `buildPages` builder: iterate the canonical sectors restricted to the
active ones, then goals 1..17, and keep every complete four-dimension pick. -/
def buildPages (questions : List Question) (activeSectors : List String) :
    List (List Question) :=
  (SECTOR_ORDER.filter (fun s => activeSectors.contains s)).flatMap (fun sector =>
    (List.range 17).filterMap (fun (i : ℕ) =>
      pickFourDimsFor (questions.filter (fun q =>
        canonicalSector q.sector = sector ∧ q.sdg_number = (i : ℤ) + 1))))

end Form

/-- A raw, loosely typed row as the two `normalizeRow` variants receive it:
every field holds an arbitrary JavaScript value. -/
structure JRow where
  sdg_number : JVal := JVal.vnull
  sdg_description : JVal := JVal.vnull
  sector : JVal := JVal.vnull
  sdg_target : JVal := JVal.vnull
  sustainability_dimension : JVal := JVal.vnull
  kpi : JVal := JVal.vnull
  question : JVal := JVal.vnull
  score : JVal := JVal.vnull
  score_description : JVal := JVal.vnull
  source : JVal := JVal.vnull
  notes : JVal := JVal.vnull
  status : JVal := JVal.vnull
  comment : JVal := JVal.vnull
deriving DecidableEq, Repr

/-!
Embedding of the `normalizeRow` of the upload-visualization page
(src/unnamed/part_013, lines 351-381): dimension prefix canonicalization with
null fallback, digit extraction plus clamping for the goal number, numeric
coercion plus clamping for the score.
-/
namespace Part013

/-- The dimension component: prefix match on the lower-cased stringified
value, null when nothing matches. -/
def normDim (v : JVal) : JVal :=
  let t := Scorecard.jsToLower (Scorecard.jvalOrEmptyToString v)
  if Scorecard.jsStartsWith t ("econ") then JVal.vstr ("Economic Performance")
  else if Scorecard.jsStartsWith t ("circ") then JVal.vstr ("Circular Performance")
  else if Scorecard.jsStartsWith t ("env") then JVal.vstr ("Environmental Performance")
  else if Scorecard.jsStartsWith t ("soc") then JVal.vstr ("Social Performance")
  else JVal.vnull

/-- The goal-number component: null stays null; otherwise the first digit run
of the stringified value (falling back to numeric coercion) is clamped into
1..17 when finite and nulled otherwise. -/
def normSdg (v : JVal) : JVal :=
  match v with
  | JVal.vnull => JVal.vnull
  | v =>
      match Scorecard.digitNumberOf v with
      | Scorecard.JNum.int z => JVal.vnum (Scorecard.JNum.int (min 17 (max 1 z)))
      | Scorecard.JNum.nan => JVal.vnull

/-- The score component: null stays null; otherwise the numeric coercion is
clamped into 0..5 when finite and nulled otherwise. -/
def normScore (v : JVal) : JVal :=
  match v with
  | JVal.vnull => JVal.vnull
  | v =>
      match Scorecard.jvalToNumber v with
      | Scorecard.JNum.int z => JVal.vnum (Scorecard.JNum.int (min 5 (max 0 z)))
      | Scorecard.JNum.nan => JVal.vnull

/-- The sector component: the row value, or the sector label when the row
value is null. -/
def normSector (v : JVal) (sectorLabel : String) : JVal :=
  match v with
  | JVal.vnull => JVal.vstr sectorLabel
  | v => v

/-- The part_013 `normalizeRow`. The metadata fields go through `?? null`,
which is the identity here because the model folds `undefined` into null. -/
def normalizeRow (r : JRow) (sectorLabel : String) : JRow :=
  { sdg_number := normSdg r.sdg_number,
    sustainability_dimension := normDim r.sustainability_dimension,
    sector := normSector r.sector sectorLabel,
    score := normScore r.score,
    sdg_description := r.sdg_description,
    sdg_target := r.sdg_target,
    kpi := r.kpi,
    question := r.question,
    score_description := r.score_description,
    source := r.source,
    notes := r.notes,
    status := r.status,
    comment := r.comment }

end Part013

/-!
Embedding of the `normalizeRow` of the adapters module (the second half of
frontend/app/components/SheetSelectionPage.tsx, lines 65-92): same digit
extraction and numeric coercion, but no clamping, no finiteness nulling, and an
unmatched dimension keeps its original value.
-/
namespace Adapters

/-- The goal-number component: null stays null; otherwise the digit-run value
or numeric coercion is kept as is, with no clamping. -/
def normSdg (v : JVal) : JVal :=
  match v with
  | JVal.vnull => JVal.vnull
  | v => JVal.vnum (Scorecard.digitNumberOf v)

/-- The score component: null stays null; otherwise plain numeric coercion
with no clamping. -/
def normScore (v : JVal) : JVal :=
  match v with
  | JVal.vnull => JVal.vnull
  | v => JVal.vnum (Scorecard.jvalToNumber v)

/-- The dimension component: prefix match as in part_013, but an unmatched
value is kept (`?? null` folds null to null). -/
def normDim (v : JVal) : JVal :=
  let t := Scorecard.jsToLower (Scorecard.jvalOrEmptyToString v)
  if Scorecard.jsStartsWith t ("econ") then JVal.vstr ("Economic Performance")
  else if Scorecard.jsStartsWith t ("circ") then JVal.vstr ("Circular Performance")
  else if Scorecard.jsStartsWith t ("env") then JVal.vstr ("Environmental Performance")
  else if Scorecard.jsStartsWith t ("soc") then JVal.vstr ("Social Performance")
  else v

/-- The adapters `normalizeRow`: spread of the original row with the four
recomputed fields. -/
def normalizeRow (r : JRow) (sectorLabel : String) : JRow :=
  { r with
    sdg_number := normSdg r.sdg_number,
    score := normScore r.score,
    sector := Part013.normSector r.sector sectorLabel,
    sustainability_dimension := normDim r.sustainability_dimension }

end Adapters

/-!
Embedding of the radial layout of `useGridRoulette` in scorecard-viz.tsx: the
ring-segment geometry that carries the data (one segment per goal, dimension
and score level), guarded by the zero-size check of the effect. Angles are
stored as fractions of a full turn, so the d3 band-scale arithmetic over the
range 0..2*pi stays in `ℚ` exactly.
-/
namespace Layout

/-- One drawn ring segment with its arc data and fill state. -/
structure SegGeom where
  sdg : ℤ
  dimKey : String
  level : ℕ
  innerR : ℚ
  outerR : ℚ
  startTurn : ℚ
  endTurn : ℚ
  filled : Bool
deriving DecidableEq, Repr

/-- The band step of the d3 band scale over 17 goals with inner padding 0.01
and default outer padding 0, as a fraction of a full turn. -/
def stepTurn : ℚ := 1 / (17 - 1 / 100)

/-- The bandwidth of one goal wedge as a fraction of a full turn. -/
def bandwidthTurn : ℚ := stepTurn * (1 - 1 / 100)

/-- The wedge start angle of a goal, as a fraction of a full turn. With align
0.5 the leading offset of the band scale is zero here. -/
def goalStartTurn (sdg : ℤ) : ℚ := stepTurn * ((sdg : ℚ) - 1)

/-- The inner legend radius constant. -/
def innerRadius : ℚ := 120

/-- The outer radius: half the smaller container side minus the margin, which
is the larger of 110 and twelve percent of the smaller side. -/
def outerRadius (width height : ℚ) : ℚ :=
  min width height / 2 - max 110 (min width height * (12 / 100))

/-- The five stacked level segments of one dimension sub-wedge of one goal:
levels up to the cell's rounded score are filled. -/
def dimSegs (cells : List Viz.Cell) (scoreRadiusWidth : ℚ) (sdg : ℤ)
    (startAngle : ℚ) (dimPair : ℕ × Viz.DimMeta) : List SegGeom :=
  let dimensionAngleWidth := bandwidthTurn / 4
  let dimStartAngle := startAngle + (dimPair.1 : ℚ) * dimensionAngleWidth
  let dimEndAngle := dimStartAngle + dimensionAngleWidth
  let cellData := cells.find? (fun c => c.sdg = sdg ∧ c.dim = dimPair.2.key)
  let score : ℤ := match cellData with | some c => c.score | none => 0
  (List.range 5).map (fun l =>
    let level := l + 1
    { sdg := sdg,
      dimKey := dimPair.2.key,
      level := level,
      innerR := innerRadius + ((level : ℚ) - 1) * scoreRadiusWidth,
      outerR := innerRadius + ((level : ℚ) - 1) * scoreRadiusWidth + scoreRadiusWidth,
      startTurn := dimStartAngle,
      endTurn := dimEndAngle,
      filled := decide ((level : ℤ) ≤ score) })

/-- All twenty level segments of one goal wedge (4 dimensions times 5 score
levels). -/
def goalSegs (cells : List Viz.Cell) (scoreRadiusWidth : ℚ) (i : ℕ) : List SegGeom :=
  Viz.DIMENSIONS.enum.flatMap
    (dimSegs cells scoreRadiusWidth ((i : ℤ) + 1) (goalStartTurn ((i : ℤ) + 1)))

/-- The ring-segment geometry of the effect body. The zero-size guard of the
effect returns before any drawing, which this model renders as the empty
list. -/
def segmentGeoms (cells : List Viz.Cell) (width height : ℚ) : List SegGeom :=
  if width = 0 ∨ height = 0 then []
  else
    (List.range 17).flatMap
      (goalSegs cells ((outerRadius width height - innerRadius) / 5))

end Layout

/-- Modelled from the spec: rounding to the nearest integer with ties away
from zero, the policy the specification prescribes for cell scores. Used only
to compare against the `Math.round` policy the code implements. -/
def roundHalfAwayFromZero (q : ℚ) : ℤ :=
  if q < 0 then -⌊-q + 1 / 2⌋ else ⌊q + 1 / 2⌋

/-!
Concrete inputs used to witness or refute the claims on explicit data.
-/
namespace Demo

/-- A questionnaire row for the Textiles sector with the given goal, canonical
dimension and score. -/
def vrow (g : ℤ) (dim : String) (sc : JNum) : Viz.QuestionnaireRow :=
  { sdg_number := some (JNum.int g), sector := some ("Textiles"),
    sustainability_dimension := some dim, score := some sc }

/-- Goal 1, Economic, score 2. -/
def rowA : Viz.QuestionnaireRow := vrow 1 ("Economic Performance") (JNum.int 2)

/-- Goal 1, Economic, score 3. -/
def rowB : Viz.QuestionnaireRow := vrow 1 ("Economic Performance") (JNum.int 3)

/-- Goal 1, Economic, score 2 (second copy for the three-row mean). -/
def rowB2 : Viz.QuestionnaireRow := vrow 1 ("Economic Performance") (JNum.int 2)

/-- Goal 1, Economic, score minus 2 (negative-mean input). -/
def negA : Viz.QuestionnaireRow := vrow 1 ("Economic Performance") (JNum.int (-2))

/-- Goal 1, Economic, score minus 3 (negative-mean input). -/
def negB : Viz.QuestionnaireRow := vrow 1 ("Economic Performance") (JNum.int (-3))

/-- Goal 2, Economic, score 2 (first duplicate). -/
def dupR1 : Viz.QuestionnaireRow := vrow 2 ("Economic Performance") (JNum.int 2)

/-- Goal 2, Economic, score 4 (second duplicate, same key). -/
def dupR2 : Viz.QuestionnaireRow := vrow 2 ("Economic Performance") (JNum.int 4)

/-- A row with goal number 0 but valid sector, dimension and score. -/
def badRow : Viz.QuestionnaireRow := vrow 0 ("Economic Performance") (JNum.int 3)

/-- A catalog question for the Textiles sector with the given dimension and
kpi text, at goal 3. -/
def fq (dim kpi : String) : Form.Question :=
  { id := "q", sdg_number := 3, sdg_description := "", sdg_target := "",
    sustainability_dimension := dim, kpi := kpi, question := "", sector := "Textiles" }

/-- A complete catalog for one goal: one question per short dimension label,
listed out of canonical order on purpose. -/
def demoQuestions : List Form.Question :=
  [fq ("Economic") ("a"), fq ("Social") ("b"), fq ("Circular") ("c"),
   fq ("Environmental") ("d")]

/-- The page `buildPages` produces from `demoQuestions`. -/
def demoPage : List Form.Question :=
  [fq ("Circular") ("c"), fq ("Environmental") ("d"), fq ("Economic") ("a"),
   fq ("Social") ("b")]

/-- Two catalog questions with the same sector, goal and dimension but
different kpi text. -/
def qDupA : Form.Question := fq ("Economic") ("first")

/-- The second duplicate question. -/
def qDupB : Form.Question := fq ("Economic") ("second")

/-- The cell `makeCells [rowA, rowB]` emits at goal 1, Economic: contributing
scores 2 and 3, mean 5 / 2, rounded score 3. -/
def demoCell : Viz.Cell :=
  { sdg := 1, dim := "Economic Performance", score := 3, count := 2,
    items := [rowA, rowB] }

/-- The Economic entry of the `DIMENSIONS` table. -/
def econMeta : Viz.DimMeta :=
  { key := "Economic Performance", color := "#DC2626", shortKey := "Economic" }

/-- The cell `makeCells [negA, negB]` emits at goal 1, Economic: contributing
scores -2 and -3, mean -5 / 2, rounded score -2. -/
def cexCell : Viz.Cell :=
  { sdg := 1, dim := "Economic Performance", score := -2, count := 2,
    items := [negA, negB] }

/-- The cell `makeCells [dupR1, dupR2]` emits at goal 2, Economic: both
duplicate rows contribute, scores 2 and 4 average to 3. -/
def dupCell : Viz.Cell :=
  { sdg := 2, dim := "Economic Performance", score := 3, count := 2,
    items := [dupR1, dupR2] }

end Demo

/-!
Characterization of the `makeCells` grouping map: the bucket looked up at a
key holds exactly the sum, count and list of the kept rows carrying that key.
-/
namespace Viz

theorem pushAll_cons (b : Bucket) (r : QuestionnaireRow) (ms : List QuestionnaireRow) :
    pushAll b (r :: ms) = pushAll (pushRow r b) ms := rfl

theorem scoreInts_cons (r : QuestionnaireRow) (ms : List QuestionnaireRow) :
    scoreInts (r :: ms) =
      (match r.score with
       | some (Scorecard.JNum.int z) => z :: scoreInts ms
       | _ => scoreInts ms) := by
  rcases hs : r.score with _ | j
  · simp [scoreInts, List.filterMap_cons, hs]
  · cases j <;> simp [scoreInts, List.filterMap_cons, hs]

theorem pushAll_spec :
    ∀ (ms : List QuestionnaireRow) (b : Bucket),
      pushAll b ms =
        { sum := b.sum + (scoreInts ms).sum, n := b.n + (scoreInts ms).length,
          items := b.items ++ ms } := by
  intro ms
  induction ms with
  | nil => intro b; simp [pushAll, scoreInts]
  | cons r ms ih =>
      intro b
      rw [pushAll_cons, ih, scoreInts_cons]
      rcases hs : r.score with _ | j
      · simp [pushRow, hs]
      · cases j with
        | nan => simp [pushRow, hs]
        | int z =>
            simp [pushRow, hs]
            constructor
            · omega
            · omega

theorem lookup_updateBuckets_self (k : ℤ × String) (r : QuestionnaireRow) :
    ∀ m, lookupBucket (updateBuckets k r m) k =
      some (pushRow r ((lookupBucket m k).getD emptyBucket)) := by
  intro m
  induction m with
  | nil => simp [updateBuckets, lookupBucket]
  | cons p rest ih =>
      obtain ⟨k0, b0⟩ := p
      by_cases h : k0 = k
      · subst h
        simp [updateBuckets, lookupBucket]
      · simp [updateBuckets, lookupBucket, h, ih]

theorem lookup_updateBuckets_other {k0 k : ℤ × String} (h : k0 ≠ k) (r : QuestionnaireRow) :
    ∀ m, lookupBucket (updateBuckets k0 r m) k = lookupBucket m k := by
  intro m
  induction m with
  | nil => simp [updateBuckets, lookupBucket, h]
  | cons p rest ih =>
      obtain ⟨k1, b1⟩ := p
      by_cases h1 : k1 = k0
      · subst h1
        simp [updateBuckets, lookupBucket, h]
      · simp [updateBuckets, lookupBucket, h1, ih]

theorem combineB_nil (o : Option Bucket) : combineB o [] = o := by
  cases o <;> rfl

theorem combineB_some (b : Bucket) (ms : List QuestionnaireRow) :
    combineB (some b) ms = some (pushAll b ms) := by
  cases ms <;> rfl

theorem combineB_cons (o : Option Bucket) (r : QuestionnaireRow)
    (ms : List QuestionnaireRow) :
    combineB o (r :: ms) = some (pushAll (o.getD emptyBucket) (r :: ms)) := by
  cases o <;> rfl

theorem rowsFor_cons (r : QuestionnaireRow) (rows : List QuestionnaireRow)
    (k : ℤ × String) :
    rowsFor (r :: rows) k =
      if rowKey r = some k then r :: rowsFor rows k else rowsFor rows k := by
  simp only [rowsFor, List.filter_cons]
  by_cases h : rowKey r = some k <;> simp [h]

theorem lookup_foldl :
    ∀ (rows : List QuestionnaireRow) (acc : List ((ℤ × String) × Bucket))
      (k : ℤ × String),
      lookupBucket (rows.foldl stepB acc) k =
        combineB (lookupBucket acc k) (rowsFor rows k) := by
  intro rows
  induction rows with
  | nil => intro acc k; simp [rowsFor, combineB_nil]
  | cons r rows ih =>
      intro acc k
      rw [List.foldl_cons, rowsFor_cons]
      rcases hk : rowKey r with _ | k0
      · have hstep : stepB acc r = acc := by simp [stepB, hk]
        rw [hstep, ih]
        simp [hk]
      · have hstep : stepB acc r = updateBuckets k0 r acc := by simp [stepB, hk]
        rw [hstep, ih]
        by_cases h : k0 = k
        · subst h
          rw [lookup_updateBuckets_self, combineB_some, if_pos rfl, combineB_cons,
            pushAll_cons]
        · rw [lookup_updateBuckets_other h, if_neg]
          simp [h]

theorem lookup_buildBuckets (rows : List QuestionnaireRow) (k : ℤ × String) :
    lookupBucket (buildBuckets rows) k = combineB none (rowsFor rows k) := by
  rw [buildBuckets, lookup_foldl]
  rfl

theorem jround_zero : jround 0 = 0 := by
  norm_num [jround]

theorem mkCellFor_of_empty {rows : List QuestionnaireRow} {sector : String}
    {g : ℤ} {d : DimMeta}
    (h : rowsFor (keptRows rows sector) (g, d.key) = []) :
    mkCellFor (buildBuckets (keptRows rows sector)) g d =
      { sdg := g, dim := d.key, score := 0, count := 0, items := [] } := by
  unfold mkCellFor
  rw [lookup_buildBuckets, h, combineB_nil]
  simp [jround_zero]

theorem mkCellFor_of_ne {rows : List QuestionnaireRow} {sector : String}
    {g : ℤ} {d : DimMeta}
    (h : rowsFor (keptRows rows sector) (g, d.key) ≠ []) :
    mkCellFor (buildBuckets (keptRows rows sector)) g d =
      { sdg := g, dim := d.key,
        score := jround
          (if (scoreInts (rowsFor (keptRows rows sector) (g, d.key))).length = 0 then 0
           else ((scoreInts (rowsFor (keptRows rows sector) (g, d.key))).sum : ℚ) /
             ((scoreInts (rowsFor (keptRows rows sector) (g, d.key))).length : ℚ)),
        count := (scoreInts (rowsFor (keptRows rows sector) (g, d.key))).length,
        items := rowsFor (keptRows rows sector) (g, d.key) } := by
  unfold mkCellFor
  rw [lookup_buildBuckets]
  rcases hms : rowsFor (keptRows rows sector) (g, d.key) with _ | ⟨m, ms0⟩
  · exact absurd hms h
  · rw [combineB_cons, pushAll_spec]
    simp [emptyBucket]

theorem mkCellFor_sdg (bucket : List ((ℤ × String) × Bucket)) (g : ℤ) (d : DimMeta) :
    (mkCellFor bucket g d).sdg = g := by
  unfold mkCellFor
  cases lookupBucket bucket (g, d.key) <;> rfl

theorem mkCellFor_dim (bucket : List ((ℤ × String) × Bucket)) (g : ℤ) (d : DimMeta) :
    (mkCellFor bucket g d).dim = d.key := by
  unfold mkCellFor
  cases lookupBucket bucket (g, d.key) <;> rfl

theorem mkCellFor_mem (rows : List QuestionnaireRow) (sector : String)
    {g : ℤ} (hg1 : 1 ≤ g) (hg2 : g ≤ 17) {d : DimMeta} (hd : d ∈ DIMENSIONS) :
    mkCellFor (buildBuckets (keptRows rows sector)) g d ∈ makeCells rows sector := by
  unfold makeCells
  rw [List.mem_flatMap]
  refine ⟨(g - 1).toNat, ?_, ?_⟩
  · rw [List.mem_range]
    omega
  · rw [List.mem_map]
    refine ⟨d, hd, ?_⟩
    congr 1
    omega

theorem mem_makeCells {rows : List QuestionnaireRow} {sector : String} {c : Cell}
    (hc : c ∈ makeCells rows sector) :
    ∃ g d, 1 ≤ g ∧ g ≤ 17 ∧ d ∈ DIMENSIONS ∧
      c = mkCellFor (buildBuckets (keptRows rows sector)) g d := by
  unfold makeCells at hc
  rw [List.mem_flatMap] at hc
  obtain ⟨i, hi, hc⟩ := hc
  rw [List.mem_range] at hi
  rw [List.mem_map] at hc
  obtain ⟨d, hd, hc⟩ := hc
  exact ⟨(i : ℤ) + 1, d, by omega, by omega, hd, hc.symm⟩

end Viz

/-- Rounding half toward positive infinity agrees with rounding half away
from zero on non-negative arguments. -/
theorem jround_eq_away_of_nonneg {q : ℚ} (h : 0 ≤ q) :
    Viz.jround q = roundHalfAwayFromZero q := by
  simp [roundHalfAwayFromZero, Viz.jround, not_lt.mpr h]

/-- C1. For every list of rows and every sector string, `makeCells` returns
exactly 68 cells, one per goal in 1..17 paired with each of the 4 canonical
dimensions, in goal-major, dimension-minor order, regardless of the input
rows (including the empty list). -/
theorem makeCells_always_68_cells_in_order
    (rows : List Viz.QuestionnaireRow) (sector : String) :
    (Viz.makeCells rows sector).length = 68 ∧
    (Viz.makeCells rows sector).map (fun c => (c.sdg, c.dim)) = Viz.cellKeys := by
  have hmap : (Viz.makeCells rows sector).map (fun c => (c.sdg, c.dim)) = Viz.cellKeys := by
    unfold Viz.makeCells Viz.cellKeys
    rw [List.map_flatMap]
    refine List.flatMap_congr (fun i hi => ?_)
    rw [List.map_map]
    exact List.map_congr_left (fun d hd => by
      simp [Function.comp, Viz.mkCellFor_sdg, Viz.mkCellFor_dim])
  refine ⟨?_, hmap⟩
  have hlen := congrArg List.length hmap
  rw [List.length_map] at hlen
  rw [hlen]
  rfl

/-- C2, counterexample to the claim as stated: with contributing scores -2
and -3 the mean is -5 / 2; the emitted cell score is -2 (`Math.round` ties go
toward positive infinity) while rounding the tie away from zero would give
-3. -/
theorem makeCells_round_ties_away_cex :
    Demo.cexCell ∈ Viz.makeCells [Demo.negA, Demo.negB] ("Textiles") ∧
    Demo.cexCell.score = -2 ∧
    Viz.scoreInts Demo.cexCell.items = [-2, -3] ∧
    roundHalfAwayFromZero (((-2 : ℚ) + -3) / 2) = -3 ∧ ((-2 : ℤ) ≠ -3) := by
  have h1 : Viz.rowsFor (Viz.keptRows [Demo.negA, Demo.negB] ("Textiles"))
      (1, Demo.econMeta.key) = [Demo.negA, Demo.negB] := by decide
  have h2 : Viz.scoreInts [Demo.negA, Demo.negB] = [-2, -3] := by decide
  have hcell : Viz.mkCellFor
      (Viz.buildBuckets (Viz.keptRows [Demo.negA, Demo.negB] ("Textiles")))
      1 Demo.econMeta = Demo.cexCell := by
    rw [Viz.mkCellFor_of_ne (by rw [h1]; simp), h1, h2]
    norm_num [Demo.cexCell, Viz.jround, Demo.econMeta]
  have hmem := Viz.mkCellFor_mem [Demo.negA, Demo.negB] ("Textiles")
    (show (1 : ℤ) ≤ 1 by norm_num) (show (1 : ℤ) ≤ 17 by norm_num)
    (show Demo.econMeta ∈ Viz.DIMENSIONS by decide)
  refine ⟨hcell ▸ hmem, rfl, h2, ?_, by decide⟩
  norm_num [roundHalfAwayFromZero]

/-- C2, amended. Every cell emitted by the aggregator scores the arithmetic
mean of the finite scores of its contributing rows rounded half toward
positive infinity (`Math.round`), which coincides with rounding ties away
from zero whenever the mean is non-negative; a cell with no scored
contributing rows has score 0 and count 0. -/
theorem makeCells_cell_score_is_rounded_mean
    (rows : List Viz.QuestionnaireRow) (sector : String) (c : Viz.Cell)
    (hc : c ∈ Viz.makeCells rows sector) :
    c.count = (Viz.scoreInts c.items).length ∧
    (Viz.scoreInts c.items = [] → c.score = 0 ∧ c.count = 0) ∧
    (Viz.scoreInts c.items ≠ [] →
      c.score = Viz.jround (((Viz.scoreInts c.items).sum : ℚ) /
        ((Viz.scoreInts c.items).length : ℚ)) ∧
      (0 ≤ ((Viz.scoreInts c.items).sum : ℚ) / ((Viz.scoreInts c.items).length : ℚ) →
        c.score = roundHalfAwayFromZero (((Viz.scoreInts c.items).sum : ℚ) /
          ((Viz.scoreInts c.items).length : ℚ)))) := by
  obtain ⟨g, d, hg1, hg2, hd, hc⟩ := Viz.mem_makeCells hc
  by_cases hms : Viz.rowsFor (Viz.keptRows rows sector) (g, d.key) = []
  · have hitems : c.items = [] := by rw [hc, Viz.mkCellFor_of_empty hms]
    have hcount : c.count = 0 := by rw [hc, Viz.mkCellFor_of_empty hms]
    have hscore : c.score = 0 := by rw [hc, Viz.mkCellFor_of_empty hms]
    rw [hitems, hcount, hscore]
    simp [Viz.scoreInts]
  · have hitems : c.items = Viz.rowsFor (Viz.keptRows rows sector) (g, d.key) := by
      rw [hc, Viz.mkCellFor_of_ne hms]
    have hcount :
        c.count = (Viz.scoreInts (Viz.rowsFor (Viz.keptRows rows sector) (g, d.key))).length := by
      rw [hc, Viz.mkCellFor_of_ne hms]
    have hscore : c.score = Viz.jround
        (if (Viz.scoreInts (Viz.rowsFor (Viz.keptRows rows sector) (g, d.key))).length = 0 then 0
         else ((Viz.scoreInts (Viz.rowsFor (Viz.keptRows rows sector) (g, d.key))).sum : ℚ) /
           ((Viz.scoreInts (Viz.rowsFor (Viz.keptRows rows sector) (g, d.key))).length : ℚ)) := by
      rw [hc, Viz.mkCellFor_of_ne hms]
    by_cases hlen : (Viz.scoreInts (Viz.rowsFor (Viz.keptRows rows sector) (g, d.key))).length = 0
    · have hnil := List.length_eq_zero.mp hlen
      refine ⟨?_, fun _ => ⟨?_, ?_⟩, fun hcontra => ?_⟩
      · rw [hcount, hitems]
      · rw [hscore, if_pos hlen, Viz.jround_zero]
      · rw [hcount, hlen]
      · exact absurd (by rw [hitems]; exact hnil) hcontra
    · have hne : Viz.scoreInts (Viz.rowsFor (Viz.keptRows rows sector) (g, d.key)) ≠ [] := by
        intro hcontra
        rw [hcontra] at hlen
        exact hlen rfl
      refine ⟨?_, fun hcontra => ?_, fun _ => ⟨?_, fun hq => ?_⟩⟩
      · rw [hcount, hitems]
      · rw [hitems] at hcontra
        exact absurd hcontra hne
      · rw [hscore, hitems, if_neg hlen]
      · rw [hitems] at hq
        rw [hscore, hitems, if_neg hlen]
        exact jround_eq_away_of_nonneg hq

/-- C2, witness: the cell at goal 1, Economic, for contributing scores 2 and
3 is a member of the aggregation output, and the amended rounding law holds
there (mean 5 / 2 rounds to 3). -/
theorem makeCells_cell_score_witness :
    Demo.demoCell ∈ Viz.makeCells [Demo.rowA, Demo.rowB] ("Textiles") ∧
    (Demo.demoCell.count = (Viz.scoreInts Demo.demoCell.items).length ∧
    (Viz.scoreInts Demo.demoCell.items = [] →
      Demo.demoCell.score = 0 ∧ Demo.demoCell.count = 0) ∧
    (Viz.scoreInts Demo.demoCell.items ≠ [] →
      Demo.demoCell.score = Viz.jround (((Viz.scoreInts Demo.demoCell.items).sum : ℚ) /
        ((Viz.scoreInts Demo.demoCell.items).length : ℚ)) ∧
      (0 ≤ ((Viz.scoreInts Demo.demoCell.items).sum : ℚ) /
          ((Viz.scoreInts Demo.demoCell.items).length : ℚ) →
        Demo.demoCell.score = roundHalfAwayFromZero
          (((Viz.scoreInts Demo.demoCell.items).sum : ℚ) /
            ((Viz.scoreInts Demo.demoCell.items).length : ℚ))))) := by
  have h1 : Viz.rowsFor (Viz.keptRows [Demo.rowA, Demo.rowB] ("Textiles"))
      (1, Demo.econMeta.key) = [Demo.rowA, Demo.rowB] := by decide
  have h2 : Viz.scoreInts [Demo.rowA, Demo.rowB] = [2, 3] := by decide
  have hcell : Viz.mkCellFor
      (Viz.buildBuckets (Viz.keptRows [Demo.rowA, Demo.rowB] ("Textiles")))
      1 Demo.econMeta = Demo.demoCell := by
    rw [Viz.mkCellFor_of_ne (by rw [h1]; simp), h1, h2]
    norm_num [Demo.demoCell, Viz.jround, Demo.econMeta]
  have hmem : Demo.demoCell ∈ Viz.makeCells [Demo.rowA, Demo.rowB] ("Textiles") :=
    hcell ▸ Viz.mkCellFor_mem [Demo.rowA, Demo.rowB] ("Textiles")
      (show (1 : ℤ) ≤ 1 by norm_num) (show (1 : ℤ) ≤ 17 by norm_num)
      (show Demo.econMeta ∈ Viz.DIMENSIONS by decide)
  exact ⟨hmem,
    makeCells_cell_score_is_rounded_mean [Demo.rowA, Demo.rowB] ("Textiles")
      Demo.demoCell hmem⟩

/-- C10. A row whose goal number is null, NaN, 0, or outside 1..17
contributes to no cell at all: removing it from the input leaves the entire
aggregation output unchanged. -/
theorem makeCells_drops_bad_goal_rows
    (rows1 rows2 : List Viz.QuestionnaireRow) (r : Viz.QuestionnaireRow)
    (h : Viz.badSdgB r = true) (sector : String) :
    Viz.makeCells (rows1 ++ r :: rows2) sector = Viz.makeCells (rows1 ++ rows2) sector := by
  have hkey : ∀ (g : ℤ), 1 ≤ g → g ≤ 17 → ∀ dk : String,
      ¬(Viz.rowKey r = some (g, dk)) := by
    intro g hg1 hg2 dk
    unfold Viz.badSdgB at h
    rcases hs : r.sdg_number with _ | j
    · rcases hd : Viz.canonicalDim r.sustainability_dimension with _ | d <;>
        simp [Viz.rowKey, hs, hd]
    · cases j with
      | nan =>
          rcases hd : Viz.canonicalDim r.sustainability_dimension with _ | d <;>
            simp [Viz.rowKey, hs, hd]
      | int z =>
          rw [hs] at h
          simp only [decide_eq_true_eq, Bool.or_eq_true, decide_eq_true_eq] at h
          rcases hd : Viz.canonicalDim r.sustainability_dimension with _ | d
          · simp [Viz.rowKey, hs, hd]
          · by_cases hz : z = 0
            · simp [Viz.rowKey, hs, hd, hz]
            · simp only [Viz.rowKey, hs, hd, Option.getD, if_neg hz]
              intro hcontra
              rw [Option.some_inj, Prod.mk.injEq] at hcontra
              omega
  have hrows : ∀ (g : ℤ), 1 ≤ g → g ≤ 17 → ∀ dk : String,
      Viz.rowsFor (Viz.keptRows (rows1 ++ r :: rows2) sector) (g, dk) =
        Viz.rowsFor (Viz.keptRows (rows1 ++ rows2) sector) (g, dk) := by
    intro g h1 h2 dk
    unfold Viz.keptRows Viz.rowsFor
    simp only [List.filter_append, List.filter_cons]
    by_cases hk : Viz.canonicalSector r.sector = some sector
    · simp [hk, hkey g h1 h2 dk]
    · simp [hk]
  unfold Viz.makeCells
  refine List.flatMap_congr (fun i hi => ?_)
  refine List.map_congr_left (fun d hd => ?_)
  rw [List.mem_range] at hi
  unfold Viz.mkCellFor
  rw [Viz.lookup_buildBuckets, Viz.lookup_buildBuckets,
    hrows ((i : ℤ) + 1) (by omega) (by omega) d.key]

/-- C10, witness: a row with goal number 0 but valid sector, dimension and
score changes nothing in the aggregation output. -/
theorem makeCells_drops_bad_goal_rows_witness :
    Viz.badSdgB Demo.badRow = true ∧
    Viz.makeCells ([] ++ Demo.badRow :: []) ("Textiles") =
      Viz.makeCells ([] ++ []) ("Textiles") :=
  ⟨by decide,
   makeCells_drops_bad_goal_rows [] [] Demo.badRow (by decide) ("Textiles")⟩

/-!
Page-builder lemmas: the shape of `pickFourDimsFor` successes and membership
in `buildPages`.
-/
namespace Form

theorem dimIdx_circular {q : Question} (h : q.sustainability_dimension = "Circular") :
    dimIdx q = 0 := by
  unfold dimIdx
  rw [h]
  rfl

theorem dimIdx_environmental {q : Question}
    (h : q.sustainability_dimension = "Environmental") : dimIdx q = 1 := by
  unfold dimIdx
  rw [h]
  rfl

theorem dimIdx_economic {q : Question} (h : q.sustainability_dimension = "Economic") :
    dimIdx q = 2 := by
  unfold dimIdx
  rw [h]
  rfl

theorem dimIdx_social {q : Question} (h : q.sustainability_dimension = "Social") :
    dimIdx q = 3 := by
  unfold dimIdx
  rw [h]
  rfl

theorem sortFour (a b c d : Question)
    (ha : a.sustainability_dimension = "Circular")
    (hb : b.sustainability_dimension = "Environmental")
    (hc : c.sustainability_dimension = "Economic")
    (hd : d.sustainability_dimension = "Social") :
    sortByDimList [a, b, c, d] = [a, b, c, d] := by
  have ia := dimIdx_circular ha
  have ib := dimIdx_environmental hb
  have ic := dimIdx_economic hc
  have idd := dimIdx_social hd
  norm_num [sortByDimList, insertByDim, ia, ib, ic, idd]

theorem pickFour_eq_some {arr : List Question} {page : List Question}
    (h : pickFourDimsFor arr = some page) :
    ∃ a b c d, a ∈ arr ∧ b ∈ arr ∧ c ∈ arr ∧ d ∈ arr ∧
      a.sustainability_dimension = "Circular" ∧
      b.sustainability_dimension = "Environmental" ∧
      c.sustainability_dimension = "Economic" ∧
      d.sustainability_dimension = "Social" ∧
      page = [a, b, c, d] := by
  unfold pickFourDimsFor at h
  by_cases hlen : arr.length = 0
  · rw [if_pos hlen] at h
    exact absurd h (by simp)
  · rw [if_neg hlen] at h
    rcases hfa : arr.find? (fun q => q.sustainability_dimension = "Circular") with _ | a <;>
      rw [hfa] at h
    · exact absurd h (by simp)
    rcases hfb : arr.find? (fun q => q.sustainability_dimension = "Environmental") with _ | b <;>
      rw [hfb] at h
    · exact absurd h (by simp)
    rcases hfc : arr.find? (fun q => q.sustainability_dimension = "Economic") with _ | c <;>
      rw [hfc] at h
    · exact absurd h (by simp)
    rcases hfd : arr.find? (fun q => q.sustainability_dimension = "Social") with _ | d <;>
      rw [hfd] at h
    · exact absurd h (by simp)
    have ha : a.sustainability_dimension = "Circular" := by
      have := List.find?_some hfa
      simpa using this
    have hb : b.sustainability_dimension = "Environmental" := by
      have := List.find?_some hfb
      simpa using this
    have hc : c.sustainability_dimension = "Economic" := by
      have := List.find?_some hfc
      simpa using this
    have hd : d.sustainability_dimension = "Social" := by
      have := List.find?_some hfd
      simpa using this
    refine ⟨a, b, c, d, List.mem_of_find?_eq_some hfa, List.mem_of_find?_eq_some hfb,
      List.mem_of_find?_eq_some hfc, List.mem_of_find?_eq_some hfd, ha, hb, hc, hd, ?_⟩
    have hs := sortFour a b c d ha hb hc hd
    have h2 : some (sortByDimList [a, b, c, d]) = some page := h
    rw [hs] at h2
    exact (Option.some_inj.mp h2).symm

theorem mem_buildPages {qs : List Question} {activeSectors : List String}
    {page : List Question} (hp : page ∈ buildPages qs activeSectors) :
    ∃ sec, sec ∈ SECTOR_ORDER ∧ activeSectors.contains sec = true ∧
      ∃ i : ℕ, i < 17 ∧ pickFourDimsFor (qs.filter (fun q =>
        canonicalSector q.sector = sec ∧ q.sdg_number = (i : ℤ) + 1)) = some page := by
  unfold buildPages at hp
  rw [List.mem_flatMap] at hp
  obtain ⟨sec, hsec, hp⟩ := hp
  rw [List.mem_filter] at hsec
  rw [List.mem_filterMap] at hp
  obtain ⟨i, hi, hp⟩ := hp
  rw [List.mem_range] at hi
  exact ⟨sec, hsec.1, hsec.2, i, hi, hp⟩

end Form

/-- C3. Every page `buildPages` emits has exactly 4 rows drawn from the
input, with 4 distinct dimensions covering the whole of `DIM_ORDER`, all rows
sharing one canonical sector (restricted to the active canonical sectors) and
one goal in 1..17; moreover the underlying (sector, goal) group contains a
row for every one of the 4 dimensions, so a group missing a dimension can
produce no page. -/
theorem buildPages_pages_complete
    (qs : List Form.Question) (activeSectors : List String)
    (page : List Form.Question) (hp : page ∈ Form.buildPages qs activeSectors) :
    page.length = 4 ∧
    (page.map (fun q => q.sustainability_dimension)).Nodup ∧
    (∀ q ∈ page, q.sustainability_dimension ∈ Form.DIM_ORDER) ∧
    (∃ sec g, sec ∈ Form.SECTOR_ORDER ∧ activeSectors.contains sec = true ∧
      1 ≤ g ∧ g ≤ 17 ∧
      (∀ q ∈ page, q ∈ qs ∧ Form.canonicalSector q.sector = sec ∧ q.sdg_number = g) ∧
      (∀ dim ∈ Form.DIM_ORDER, ∃ q ∈ qs,
        Form.canonicalSector q.sector = sec ∧ q.sdg_number = g ∧
        q.sustainability_dimension = dim)) := by
  obtain ⟨sec, hsec, hact, i, hi, hpick⟩ := Form.mem_buildPages hp
  obtain ⟨a, b, c, d, hma, hmb, hmc, hmd, ha, hb, hc, hd, hpage⟩ :=
    Form.pickFour_eq_some hpick
  rw [List.mem_filter] at hma hmb hmc hmd
  have hpa := hma.2
  have hpb := hmb.2
  have hpc := hmc.2
  have hpd := hmd.2
  simp only [decide_eq_true_eq] at hpa hpb hpc hpd
  subst hpage
  refine ⟨rfl, ?_, ?_, sec, (i : ℤ) + 1, hsec, hact, by omega, by omega, ?_, ?_⟩
  · rw [List.map_cons, List.map_cons, List.map_cons, List.map_cons, ha, hb, hc, hd]
    decide
  · intro q hq
    simp only [List.mem_cons, List.not_mem_nil, or_false] at hq
    rcases hq with hq | hq | hq | hq
    · rw [hq, ha]; decide
    · rw [hq, hb]; decide
    · rw [hq, hc]; decide
    · rw [hq, hd]; decide
  · intro q hq
    simp only [List.mem_cons, List.not_mem_nil, or_false] at hq
    rcases hq with hq | hq | hq | hq
    · exact hq ▸ ⟨hma.1, hpa.1, hpa.2⟩
    · exact hq ▸ ⟨hmb.1, hpb.1, hpb.2⟩
    · exact hq ▸ ⟨hmc.1, hpc.1, hpc.2⟩
    · exact hq ▸ ⟨hmd.1, hpd.1, hpd.2⟩
  · intro dim hdim
    simp only [Form.DIM_ORDER, List.mem_cons, List.not_mem_nil, or_false] at hdim
    rcases hdim with hdim | hdim | hdim | hdim
    · exact ⟨a, hma.1, hpa.1, hpa.2, hdim ▸ ha⟩
    · exact ⟨b, hmb.1, hpb.1, hpb.2, hdim ▸ hb⟩
    · exact ⟨c, hmc.1, hpc.1, hpc.2, hdim ▸ hc⟩
    · exact ⟨d, hmd.1, hpd.1, hpd.2, hdim ▸ hd⟩

/-- C3, witness: a complete four-dimension catalog at (Textiles, goal 3)
produces exactly the expected page and the completeness properties hold on
it. -/
theorem buildPages_pages_complete_witness :
    Demo.demoPage ∈ Form.buildPages Demo.demoQuestions [("Textiles")] ∧
    (Demo.demoPage.length = 4 ∧
    (Demo.demoPage.map (fun q => q.sustainability_dimension)).Nodup ∧
    (∀ q ∈ Demo.demoPage, q.sustainability_dimension ∈ Form.DIM_ORDER) ∧
    (∃ sec g, sec ∈ Form.SECTOR_ORDER ∧ ([("Textiles")].contains sec) = true ∧
      1 ≤ g ∧ g ≤ 17 ∧
      (∀ q ∈ Demo.demoPage, q ∈ Demo.demoQuestions ∧
        Form.canonicalSector q.sector = sec ∧ q.sdg_number = g) ∧
      (∀ dim ∈ Form.DIM_ORDER, ∃ q ∈ Demo.demoQuestions,
        Form.canonicalSector q.sector = sec ∧ q.sdg_number = g ∧
        q.sustainability_dimension = dim))) :=
  ⟨by decide,
   buildPages_pages_complete Demo.demoQuestions [("Textiles")] Demo.demoPage (by decide)⟩

/-- C5, counterexample to the claim as stated: on a complete catalog the page
rows come out in the order Circular, Environmental, Economic, Social — not
Economic, Circular, Environmental, Social. -/
theorem buildPages_dim_order_cex :
    (Form.buildPages Demo.demoQuestions [("Textiles")]).map
        (fun p => p.map (fun q => q.sustainability_dimension)) =
      [["Circular", "Environmental", "Economic", "Social"]] ∧
    (["Circular", "Environmental", "Economic", "Social"] : List String) ≠
      ["Economic", "Circular", "Environmental", "Social"] :=
  ⟨by decide, by decide⟩

/-- C5, amended. Every page `buildPages` emits lists its 4 rows in the fixed
`DIM_ORDER` of FormPage.tsx — Circular, Environmental, Economic, Social —
which differs from the Economic-first order the cells and wedges use. -/
theorem buildPages_rows_in_dim_order
    (qs : List Form.Question) (activeSectors : List String)
    (page : List Form.Question) (hp : page ∈ Form.buildPages qs activeSectors) :
    page.map (fun q => q.sustainability_dimension) =
      ["Circular", "Environmental", "Economic", "Social"] := by
  obtain ⟨sec, hsec, hact, i, hi, hpick⟩ := Form.mem_buildPages hp
  obtain ⟨a, b, c, d, hma, hmb, hmc, hmd, ha, hb, hc, hd, hpage⟩ :=
    Form.pickFour_eq_some hpick
  subst hpage
  rw [List.map_cons, List.map_cons, List.map_cons, List.map_cons, ha, hb, hc, hd]
  rfl

/-- C5, witness: on the complete demo catalog the produced page is in the
Circular, Environmental, Economic, Social order. -/
theorem buildPages_rows_in_dim_order_witness :
    Demo.demoPage ∈ Form.buildPages Demo.demoQuestions [("Textiles")] ∧
    Demo.demoPage.map (fun q => q.sustainability_dimension) =
      ["Circular", "Environmental", "Economic", "Social"] :=
  ⟨by decide,
   buildPages_rows_in_dim_order Demo.demoQuestions [("Textiles")] Demo.demoPage
     (by decide)⟩

/-- C6. On two rows with identical (sector, goal, dimension) but different
payloads, the page-builder deduplication keeps only the first question, while
the cell aggregator averages both duplicate rows (scores 2 and 4) into one
cell of count 2 and score 3: the two stages legitimately disagree on row
counts for the same key. -/
theorem duplicate_rows_pagebuilder_vs_aggregator :
    Form.sanitizeQuestions [Demo.qDupA, Demo.qDupB] = [Demo.qDupA] ∧
    Demo.qDupA.kpi = "first" ∧ Demo.qDupB.kpi = "second" ∧
    Demo.dupCell ∈ Viz.makeCells [Demo.dupR1, Demo.dupR2] ("Textiles") ∧
    Demo.dupCell.count = 2 ∧ Demo.dupCell.score = 3 ∧
    Demo.dupCell.items = [Demo.dupR1, Demo.dupR2] ∧
    Demo.dupR1.score = some (JNum.int 2) ∧
    Demo.dupR2.score = some (JNum.int 4) := by
  have h1 : Viz.rowsFor (Viz.keptRows [Demo.dupR1, Demo.dupR2] ("Textiles"))
      (2, Demo.econMeta.key) = [Demo.dupR1, Demo.dupR2] := by decide
  have h2 : Viz.scoreInts [Demo.dupR1, Demo.dupR2] = [2, 4] := by decide
  have hcell : Viz.mkCellFor
      (Viz.buildBuckets (Viz.keptRows [Demo.dupR1, Demo.dupR2] ("Textiles")))
      2 Demo.econMeta = Demo.dupCell := by
    rw [Viz.mkCellFor_of_ne (by rw [h1]; simp), h1, h2]
    norm_num [Demo.dupCell, Viz.jround, Demo.econMeta]
  have hmem := Viz.mkCellFor_mem [Demo.dupR1, Demo.dupR2] ("Textiles")
    (show (1 : ℤ) ≤ 2 by norm_num) (show (2 : ℤ) ≤ 17 by norm_num)
    (show Demo.econMeta ∈ Viz.DIMENSIONS by decide)
  exact ⟨by decide, by decide, by decide, hcell ▸ hmem, by decide, by decide,
    by decide, by decide, by decide⟩

/-- C9. With a zero width or height the radial layout produces no geometry at
all, and with both dimensions non-zero it produces the full grid of 340 ring
segments (17 goals, 4 dimensions, 5 levels); the embedded geometry function
is total, so no division by zero or exception can occur. -/
theorem layout_skips_zero_size (cells : List Viz.Cell) (w h : ℚ) :
    ((w = 0 ∨ h = 0) → Layout.segmentGeoms cells w h = []) ∧
    (w ≠ 0 → h ≠ 0 → (Layout.segmentGeoms cells w h).length = 340) := by
  constructor
  · intro hz
    unfold Layout.segmentGeoms
    rw [if_pos hz]
  · intro hw hh
    unfold Layout.segmentGeoms
    rw [if_neg (by tauto)]
    rw [List.length_flatMap]
    have hgoal : ∀ i ∈ List.range 17,
        (List.length ∘ Layout.goalSegs cells
          ((Layout.outerRadius w h - Layout.innerRadius) / 5)) i = 20 := by
      intro i _
      show (Layout.goalSegs cells _ i).length = 20
      unfold Layout.goalSegs
      rw [List.length_flatMap]
      have hdim : ∀ p ∈ Viz.DIMENSIONS.enum,
          (List.length ∘ Layout.dimSegs cells
            ((Layout.outerRadius w h - Layout.innerRadius) / 5) ((i : ℤ) + 1)
            (Layout.goalStartTurn ((i : ℤ) + 1))) p = 5 := by
        intro p _
        show (Layout.dimSegs cells _ _ _ p).length = 5
        unfold Layout.dimSegs
        rw [List.length_map, List.length_range]
      rw [List.map_congr_left hdim]
      decide
    rw [List.map_congr_left hgoal]
    decide

/-- C9, witness: with width 0 no geometry is produced, and at 800 by 800 the
full 340-segment grid is produced. -/
theorem layout_skips_zero_size_witness :
    Layout.segmentGeoms (Viz.makeCells [] ("General")) 0 5 = [] ∧
    (Layout.segmentGeoms (Viz.makeCells [] ("General")) 800 800).length = 340 :=
  ⟨(layout_skips_zero_size (Viz.makeCells [] ("General")) 0 5).1 (Or.inl rfl),
   (layout_skips_zero_size (Viz.makeCells [] ("General")) 800 800).2
     (by norm_num) (by norm_num)⟩

/-!
Digit round-trip machinery: the decimal rendering of an integer is a pure
digit run that parses back to its absolute value.
-/

theorem chval {d : ℕ} (h : d < 10) : (Char.ofNat (48 + d)).toNat = 48 + d := by
  interval_cases d <;> decide

theorem ch_isDigit {d : ℕ} (h : d < 10) : (Char.ofNat (48 + d)).isDigit = true := by
  interval_cases d <;> decide

theorem digitsRun_eq : ∀ (fuel n : ℕ), n ≤ fuel → digitsRun fuel n = Nat.digits 10 n := by
  intro fuel
  induction fuel with
  | zero =>
      intro n hn
      have : n = 0 := by omega
      subst this
      rw [show digitsRun 0 0 = ([] : List ℕ) from rfl, Nat.digits_zero]
  | succ fuel ih =>
      intro n hn
      cases n with
      | zero => rw [show digitsRun (fuel + 1) 0 = ([] : List ℕ) from rfl, Nat.digits_zero]
      | succ m =>
          rw [show digitsRun (fuel + 1) (m + 1) =
            ((m + 1) % 10) :: digitsRun fuel ((m + 1) / 10) from rfl]
          rw [ih ((m + 1) / 10) (by omega), Nat.digits_def' (by norm_num) (Nat.succ_pos m)]

theorem foldr_digits (M : List ℕ) (h : ∀ d ∈ M, d < 10) :
    M.foldr (fun d y => 10 * y + ((Char.ofNat (48 + d)).toNat - 48)) 0 =
      Nat.ofDigits 10 M := by
  induction M with
  | nil => simp [Nat.ofDigits_nil]
  | cons d M ih =>
      rw [List.foldr_cons, ih (fun x hx => h x (List.mem_cons_of_mem d hx)),
        Nat.ofDigits_cons, chval (h d (List.mem_cons_self d M))]
      omega

theorem natOfDigits_natDigitChars (n : ℕ) :
    natOfDigits (natDigitChars n) = n := by
  by_cases h0 : n = 0
  · subst h0
    decide
  · unfold natDigitChars natOfDigits
    rw [if_neg h0, List.foldl_reverse, List.foldr_map,
      digitsRun_eq n n le_rfl,
      foldr_digits _ (fun d hd => Nat.digits_lt_base (by norm_num) hd),
      Nat.ofDigits_digits]

theorem natDigitChars_ne_nil (n : ℕ) : natDigitChars n ≠ [] := by
  unfold natDigitChars
  by_cases h0 : n = 0
  · rw [if_pos h0]
    simp
  · rw [if_neg h0]
    simp only [ne_eq, List.reverse_eq_nil_iff, List.map_eq_nil_iff]
    rw [digitsRun_eq n n le_rfl]
    exact Nat.digits_ne_nil_iff_ne_zero.mpr h0

theorem natDigitChars_all_digits (n : ℕ) :
    ∀ c ∈ natDigitChars n, c.isDigit = true := by
  intro c hc
  unfold natDigitChars at hc
  by_cases h0 : n = 0
  · rw [if_pos h0] at hc
    simp at hc
    rw [hc]
    decide
  · rw [if_neg h0] at hc
    rw [List.mem_reverse, List.mem_map] at hc
    obtain ⟨d, hd, hcd⟩ := hc
    rw [digitsRun_eq n n le_rfl] at hd
    rw [← hcd]
    exact ch_isDigit (Nat.digits_lt_base (by norm_num) hd)

theorem digitRunAux_all {L : List Char} (h0 : L ≠ [])
    (h : ∀ c ∈ L, c.isDigit = true) : digitRunAux L = some L := by
  cases L with
  | nil => exact absurd rfl h0
  | cons c cs =>
      unfold digitRunAux
      rw [if_pos (h c (List.mem_cons_self c cs))]
      rw [List.takeWhile_eq_self_iff.mpr (fun x hx => h x (List.mem_cons_of_mem c hx))]

theorem digitRun_jnumToString_int (z : ℤ) :
    digitRun? (jnumToString (JNum.int z)) = some (natDigitChars z.natAbs) := by
  have hunfold : jnumToString (JNum.int z) =
      if z < 0 then String.mk (Char.ofNat 45 :: natDigitChars z.natAbs)
      else String.mk (natDigitChars z.natAbs) := rfl
  rw [hunfold]
  by_cases hz : z < 0
  · rw [if_pos hz]
    show digitRunAux (Char.ofNat 45 :: natDigitChars z.natAbs) = _
    unfold digitRunAux
    rw [if_neg (by decide)]
    exact digitRunAux_all (natDigitChars_ne_nil _) (natDigitChars_all_digits _)
  · rw [if_neg hz]
    exact digitRunAux_all (natDigitChars_ne_nil _) (natDigitChars_all_digits _)

theorem digitNumberOf_int (z : ℤ) :
    digitNumberOf (JVal.vnum (JNum.int z)) = JNum.int z.natAbs := by
  unfold digitNumberOf
  rw [show jvalToString (JVal.vnum (JNum.int z)) = jnumToString (JNum.int z) from rfl,
    digitRun_jnumToString_int]
  simp [natOfDigits_natDigitChars]

theorem digitNumberOf_nan : digitNumberOf (JVal.vnum JNum.nan) = JNum.nan := by
  decide

theorem digitRunAux_none : ∀ {L : List Char}, digitRunAux L = none →
    ∀ c ∈ L, c.isDigit = false := by
  intro L
  induction L with
  | nil => intro _ c hc; cases hc
  | cons c0 cs ih =>
      intro h c hc
      unfold digitRunAux at h
      by_cases hd : c0.isDigit = true
      · rw [if_pos hd] at h
        cases h
      · rw [if_neg hd] at h
        rcases List.mem_cons.mp hc with hc | hc
        · rw [hc]
          exact Bool.not_eq_true _ ▸ (by simpa using hd)
        · exact ih h c hc

theorem mem_trimChars {c : Char} {L : List Char} (h : c ∈ trimChars L) : c ∈ L := by
  unfold trimChars at h
  rw [List.mem_reverse] at h
  have h2 := (List.dropWhile_sublist _).subset h
  rw [List.mem_reverse] at h2
  exact (List.dropWhile_sublist _).subset h2

theorem jnumOfString_no_digits {s : String} (h : digitRun? s = none) :
    jnumOfString s = JNum.int 0 ∨ jnumOfString s = JNum.nan := by
  have hnd : ∀ c ∈ s.toList, c.isDigit = false := digitRunAux_none h
  unfold jnumOfString
  rcases ht : trimChars s.toList with _ | ⟨c, ds⟩
  · exact Or.inl rfl
  · have hmem : ∀ x ∈ c :: ds, x.isDigit = false := by
      intro x hx
      exact hnd x (mem_trimChars (ht ▸ hx))
    right
    simp only [jnumOfTrimmed]
    by_cases hc1 : c = Char.ofNat 45
    · rw [if_pos hc1]
      rw [if_neg ?hcond]
      case hcond =>
        rintro ⟨hne, hall⟩
        rcases ds with _ | ⟨d0, ds0⟩
        · exact hne rfl
        · have := List.all_eq_true.mp hall d0 (List.mem_cons_self d0 ds0)
          have hf := hmem d0 (List.mem_cons_of_mem c (List.mem_cons_self d0 ds0))
          rw [hf] at this
          cases this
    · rw [if_neg hc1]
      by_cases hc2 : c = Char.ofNat 43
      · rw [if_pos hc2]
        rw [if_neg ?hcond2]
        case hcond2 =>
          rintro ⟨hne, hall⟩
          rcases ds with _ | ⟨d0, ds0⟩
          · exact hne rfl
          · have := List.all_eq_true.mp hall d0 (List.mem_cons_self d0 ds0)
            have hf := hmem d0 (List.mem_cons_of_mem c (List.mem_cons_self d0 ds0))
            rw [hf] at this
            cases this
      · rw [if_neg hc2]
        rw [if_neg ?hcond3]
        case hcond3 =>
          intro hall
          have := List.all_eq_true.mp hall c (List.mem_cons_self c ds)
          have hf := hmem c (List.mem_cons_self c ds)
          rw [hf] at this
          cases this

/-!
Component lemmas for the part_013 `normalizeRow`: ranges of the normalized
fields and idempotence of every component.
-/
namespace Part013

theorem normDim_range (v : JVal) :
    normDim v = JVal.vnull ∨ normDim v = JVal.vstr ("Economic Performance") ∨
    normDim v = JVal.vstr ("Circular Performance") ∨
    normDim v = JVal.vstr ("Environmental Performance") ∨
    normDim v = JVal.vstr ("Social Performance") := by
  simp only [normDim]
  split_ifs <;> simp

theorem normDim_idem (v : JVal) : normDim (normDim v) = normDim v := by
  rcases normDim_range v with h | h | h | h | h <;> rw [h] <;> decide

theorem normSdg_range (v : JVal) :
    normSdg v = JVal.vnull ∨
    ∃ z : ℤ, normSdg v = JVal.vnum (JNum.int z) ∧ 1 ≤ z ∧ z ≤ 17 := by
  cases v with
  | vnull => exact Or.inl rfl
  | vnum j =>
      rcases hd : Scorecard.digitNumberOf (JVal.vnum j) with _ | z
      · exact Or.inl (by simp [normSdg, hd])
      · exact Or.inr ⟨min 17 (max 1 z), by simp [normSdg, hd], by omega, by omega⟩
  | vstr s =>
      rcases hd : Scorecard.digitNumberOf (JVal.vstr s) with _ | z
      · exact Or.inl (by simp [normSdg, hd])
      · exact Or.inr ⟨min 17 (max 1 z), by simp [normSdg, hd], by omega, by omega⟩

theorem normSdg_idem (v : JVal) : normSdg (normSdg v) = normSdg v := by
  rcases normSdg_range v with h | ⟨z, h, h1, h2⟩
  · rw [h]
    rfl
  · rw [h]
    interval_cases z <;> decide

theorem normScore_range (v : JVal) :
    normScore v = JVal.vnull ∨
    ∃ z : ℤ, normScore v = JVal.vnum (JNum.int z) ∧ 0 ≤ z ∧ z ≤ 5 := by
  cases v with
  | vnull => exact Or.inl rfl
  | vnum j =>
      rcases hd : Scorecard.jvalToNumber (JVal.vnum j) with _ | z
      · exact Or.inl (by simp [normScore, hd])
      · exact Or.inr ⟨min 5 (max 0 z), by simp [normScore, hd], by omega, by omega⟩
  | vstr s =>
      rcases hd : Scorecard.jvalToNumber (JVal.vstr s) with _ | z
      · exact Or.inl (by simp [normScore, hd])
      · exact Or.inr ⟨min 5 (max 0 z), by simp [normScore, hd], by omega, by omega⟩

theorem normScore_fix {z : ℤ} (h0 : 0 ≤ z) (h5 : z ≤ 5) :
    normScore (JVal.vnum (JNum.int z)) = JVal.vnum (JNum.int z) := by
  have hmm : min 5 (max 0 z) = z := by omega
  show JVal.vnum (JNum.int (min 5 (max 0 z))) = JVal.vnum (JNum.int z)
  rw [hmm]

theorem normScore_idem (v : JVal) : normScore (normScore v) = normScore v := by
  rcases normScore_range v with h | ⟨z, h, h0, h5⟩
  · rw [h]
    rfl
  · rw [h]
    exact normScore_fix h0 h5

theorem normSector_idem (v : JVal) (s : String) :
    normSector (normSector v s) s = normSector v s := by
  cases v <;> rfl

theorem normalizeRow_idem (r : JRow) (s : String) :
    normalizeRow (normalizeRow r s) s = normalizeRow r s := by
  unfold normalizeRow
  simp [normSdg_idem, normDim_idem, normScore_idem, normSector_idem]

end Part013

/-!
Component lemmas for the adapters `normalizeRow`: idempotence of every
component (no clamping happens there).
-/
namespace Adapters

theorem ad_normScore_idem (v : JVal) : normScore (normScore v) = normScore v := by
  cases v <;> rfl

theorem normSdg_vals (v : JVal) :
    normSdg v = JVal.vnull ∨ normSdg v = JVal.vnum JNum.nan ∨
    ∃ n : ℕ, normSdg v = JVal.vnum (JNum.int (n : ℤ)) := by
  cases v with
  | vnull => exact Or.inl rfl
  | vnum j =>
      cases j with
      | nan => exact Or.inr (Or.inl (by simp [normSdg, Scorecard.digitNumberOf_nan]))
      | int z =>
          exact Or.inr (Or.inr ⟨z.natAbs, by simp [normSdg, Scorecard.digitNumberOf_int]⟩)
  | vstr s =>
      rcases hd : Scorecard.digitRun? s with _ | ds
      · rcases Scorecard.jnumOfString_no_digits hd with h0 | h0
        · refine Or.inr (Or.inr ⟨0, ?_⟩)
          simp [normSdg, Scorecard.digitNumberOf, Scorecard.jvalToString, hd,
            Scorecard.jvalToNumber, h0]
        · refine Or.inr (Or.inl ?_)
          simp [normSdg, Scorecard.digitNumberOf, Scorecard.jvalToString, hd,
            Scorecard.jvalToNumber, h0]
      · refine Or.inr (Or.inr ⟨Scorecard.natOfDigits ds, ?_⟩)
        simp [normSdg, Scorecard.digitNumberOf, Scorecard.jvalToString, hd]

theorem normSdg_fix_nat (n : ℕ) :
    normSdg (JVal.vnum (JNum.int (n : ℤ))) = JVal.vnum (JNum.int (n : ℤ)) := by
  simp [normSdg, Scorecard.digitNumberOf_int]

theorem normSdg_nan_fix : normSdg (JVal.vnum JNum.nan) = JVal.vnum JNum.nan := by
  simp [normSdg, Scorecard.digitNumberOf_nan]

theorem ad_normSdg_idem (v : JVal) : normSdg (normSdg v) = normSdg v := by
  rcases normSdg_vals v with h | h | ⟨n, h⟩
  · rw [h]
    rfl
  · rw [h]
    exact normSdg_nan_fix
  · rw [h]
    exact normSdg_fix_nat n

theorem ad_normDim_idem (v : JVal) : normDim (normDim v) = normDim v := by
  by_cases h1 : Scorecard.jsStartsWith
      (Scorecard.jsToLower (Scorecard.jvalOrEmptyToString v)) ("econ") = true
  · have hv : normDim v = JVal.vstr ("Economic Performance") := by
      simp [normDim, h1]
    rw [hv]
    decide
  · by_cases h2 : Scorecard.jsStartsWith
        (Scorecard.jsToLower (Scorecard.jvalOrEmptyToString v)) ("circ") = true
    · have hv : normDim v = JVal.vstr ("Circular Performance") := by
        simp [normDim, h1, h2]
      rw [hv]
      decide
    · by_cases h3 : Scorecard.jsStartsWith
          (Scorecard.jsToLower (Scorecard.jvalOrEmptyToString v)) ("env") = true
      · have hv : normDim v = JVal.vstr ("Environmental Performance") := by
          simp [normDim, h1, h2, h3]
        rw [hv]
        decide
      · by_cases h4 : Scorecard.jsStartsWith
            (Scorecard.jsToLower (Scorecard.jvalOrEmptyToString v)) ("soc") = true
        · have hv : normDim v = JVal.vstr ("Social Performance") := by
            simp [normDim, h1, h2, h3, h4]
          rw [hv]
          decide
        · have hv : normDim v = v := by
            simp [normDim, h1, h2, h3, h4]
          rw [hv]
          exact hv

theorem ad_normalizeRow_idem (r : JRow) (s : String) :
    normalizeRow (normalizeRow r s) s = normalizeRow r s := by
  unfold normalizeRow
  simp [ad_normSdg_idem, ad_normDim_idem, ad_normScore_idem, Part013.normSector_idem]

end Adapters

/-- C8. Both `normalizeRow` variants are idempotent: renormalizing an already
normalized row with the same fallback sector label changes nothing. -/
theorem normalizeRow_idempotent (r : JRow) (s : String) :
    Part013.normalizeRow (Part013.normalizeRow r s) s = Part013.normalizeRow r s ∧
    Adapters.normalizeRow (Adapters.normalizeRow r s) s = Adapters.normalizeRow r s :=
  ⟨Part013.normalizeRow_idem r s, Adapters.ad_normalizeRow_idem r s⟩

/-- C4, counterexample to the claim as stated: the adapters `normalizeRow`
performs no clamping — a raw score of 7 stays 7 (not 5) and a goal of
"SDG 25" becomes 25 (not 17). -/
theorem adapters_normalizeRow_no_clamp_cex :
    (Adapters.normalizeRow { score := JVal.vnum (JNum.int 7) } ("General")).score =
      JVal.vnum (JNum.int 7) ∧
    JVal.vnum (JNum.int 7) ≠ JVal.vnum (JNum.int 5) ∧
    (Adapters.normalizeRow { sdg_number := JVal.vstr ("SDG 25") } ("General")).sdg_number =
      JVal.vnum (JNum.int 25) ∧
    JVal.vnum (JNum.int 25) ≠ JVal.vnum (JNum.int 17) :=
  ⟨by decide, by decide, by decide, by decide⟩

/-- C4, amended. The part_013 `normalizeRow` clamps as the claim describes:
the normalized goal number is null or an integer in 1..17 (after digit
extraction), the normalized score is null or an integer in 0..5, and on the
claim's examples a raw score of 7 becomes 5, a raw score of -1 becomes 0, and
a goal of "SDG 25" becomes 17. The adapters variant does not clamp (see the
counterexample). -/
theorem part13_normalizeRow_clamps (r : JRow) (s : String) :
    ((Part013.normalizeRow r s).sdg_number = JVal.vnull ∨
      ∃ z : ℤ, (Part013.normalizeRow r s).sdg_number = JVal.vnum (JNum.int z) ∧
        1 ≤ z ∧ z ≤ 17) ∧
    ((Part013.normalizeRow r s).score = JVal.vnull ∨
      ∃ z : ℤ, (Part013.normalizeRow r s).score = JVal.vnum (JNum.int z) ∧
        0 ≤ z ∧ z ≤ 5) ∧
    (Part013.normalizeRow { score := JVal.vnum (JNum.int 7) } ("General")).score =
      JVal.vnum (JNum.int 5) ∧
    (Part013.normalizeRow { score := JVal.vnum (JNum.int (-1)) } ("General")).score =
      JVal.vnum (JNum.int 0) ∧
    (Part013.normalizeRow { sdg_number := JVal.vstr ("SDG 25") } ("General")).sdg_number =
      JVal.vnum (JNum.int 17) :=
  ⟨Part013.normSdg_range r.sdg_number, Part013.normScore_range r.score,
   by decide, by decide, by decide⟩

/-- Two prefixes of the same list are comparable. -/
theorem isPrefixOf_comparable : ∀ {L p q : List Char},
    p.isPrefixOf L = true → q.isPrefixOf L = true →
    (p.isPrefixOf q || q.isPrefixOf p) = true := by
  intro L
  induction L with
  | nil =>
      intro p q hp hq
      cases p with
      | nil => simp [List.isPrefixOf]
      | cons a as => simp [List.isPrefixOf] at hp
  | cons c L ih =>
      intro p q hp hq
      cases p with
      | nil => simp [List.isPrefixOf]
      | cons a as =>
          cases q with
          | nil => simp [List.isPrefixOf]
          | cons b bs =>
              simp only [List.isPrefixOf, Bool.and_eq_true, beq_iff_eq] at hp hq
              obtain ⟨ha, hp⟩ := hp
              obtain ⟨hb, hq⟩ := hq
              subst ha
              subst hb
              simp only [List.isPrefixOf, beq_self_eq_true, Bool.true_and]
              exact ih hp hq

/-- A string cannot start with two incomparable prefixes at once. -/
theorem jsStartsWith_excl {t p q : String}
    (hpq : (p.data.isPrefixOf q.data || q.data.isPrefixOf p.data) = false)
    (hp : jsStartsWith t p = true) : jsStartsWith t q = false := by
  by_contra hcontra
  rw [Bool.not_eq_false] at hcontra
  have hcomp := isPrefixOf_comparable hp hcontra
  rw [hcomp] at hpq
  cases hpq

/-- C7, counterexample to the claim as stated: the adapters `normalizeRow`
keeps an unmatched dimension value instead of mapping it to null. -/
theorem adapters_dim_kept_cex :
    (Adapters.normalizeRow { sustainability_dimension := JVal.vstr ("Quality") }
      ("General")).sustainability_dimension = JVal.vstr ("Quality") ∧
    JVal.vstr ("Quality") ≠ JVal.vnull :=
  ⟨by decide, by decide⟩

/-- C7, amended. The `canonicalDim` of scorecard-viz.tsx lower-cases its input
and matches by prefix, mapping econ-, circ-, env- and soc-prefixed values to
the four canonical labels; a value matching no prefix and not equal
case-insensitively to a canonical label maps to null, and the claim's three
example spellings all map to Economic Performance. (The adapters
`normalizeRow` keeps unmatched values instead; see the counterexample.) -/
theorem canonicalDim_prefix_matching (s : String) :
    (jsStartsWith (jsToLower s) ("econ") = true →
      Viz.canonicalDim (some s) = some ("Economic Performance")) ∧
    (jsStartsWith (jsToLower s) ("circ") = true →
      Viz.canonicalDim (some s) = some ("Circular Performance")) ∧
    (jsStartsWith (jsToLower s) ("env") = true →
      Viz.canonicalDim (some s) = some ("Environmental Performance")) ∧
    (jsStartsWith (jsToLower s) ("soc") = true →
      Viz.canonicalDim (some s) = some ("Social Performance")) ∧
    (jsStartsWith (jsToLower s) ("econ") = false →
     jsStartsWith (jsToLower s) ("circ") = false →
     jsStartsWith (jsToLower s) ("env") = false →
     jsStartsWith (jsToLower s) ("soc") = false →
     (∀ d ∈ Viz.DIMENSIONS, jsToLower d.key ≠ jsToLower s) →
      Viz.canonicalDim (some s) = none) ∧
    Viz.canonicalDim (some ("Economic")) = some ("Economic Performance") ∧
    Viz.canonicalDim (some ("economic performance")) = some ("Economic Performance") ∧
    Viz.canonicalDim (some ("ECONOMIC")) = some ("Economic Performance") ∧
    Viz.canonicalDim none = none := by
  refine ⟨?_, ?_, ?_, ?_, ?_, by decide, by decide, by decide, rfl⟩
  · intro h
    by_cases hs : s = ""
    · rw [hs] at h
      exact absurd h (by decide)
    · simp [Viz.canonicalDim, hs, h]
  · intro h
    have he : jsStartsWith (jsToLower s) ("econ") = false :=
      jsStartsWith_excl (by decide) h
    by_cases hs : s = ""
    · rw [hs] at h
      exact absurd h (by decide)
    · simp [Viz.canonicalDim, hs, he, h]
  · intro h
    have he : jsStartsWith (jsToLower s) ("econ") = false :=
      jsStartsWith_excl (by decide) h
    have hc : jsStartsWith (jsToLower s) ("circ") = false :=
      jsStartsWith_excl (by decide) h
    by_cases hs : s = ""
    · rw [hs] at h
      exact absurd h (by decide)
    · simp [Viz.canonicalDim, hs, he, hc, h]
  · intro h
    have he : jsStartsWith (jsToLower s) ("econ") = false :=
      jsStartsWith_excl (by decide) h
    have hc : jsStartsWith (jsToLower s) ("circ") = false :=
      jsStartsWith_excl (by decide) h
    have hv : jsStartsWith (jsToLower s) ("env") = false :=
      jsStartsWith_excl (by decide) h
    by_cases hs : s = ""
    · rw [hs] at h
      exact absurd h (by decide)
    · simp [Viz.canonicalDim, hs, he, hc, hv, h]
  · intro h1 h2 h3 h4 h5
    by_cases hs : s = ""
    · rw [hs]
      decide
    · have hfind : Viz.DIMENSIONS.find?
          (fun d => jsToLower d.key = jsToLower s) = none := by
        rw [List.find?_eq_none]
        intro d hd
        simp [h5 d hd]
      simp [Viz.canonicalDim, hs, h1, h2, h3, h4, hfind]

/-- C7, witness: "Quality" matches no prefix and no canonical label, and
canonicalDim maps it to null. -/
theorem canonicalDim_prefix_matching_witness :
    jsStartsWith (jsToLower ("Quality")) ("econ") = false ∧
    Viz.canonicalDim (some ("Quality")) = none :=
  ⟨by decide,
   (canonicalDim_prefix_matching ("Quality")).2.2.2.2.1 (by decide) (by decide)
     (by decide) (by decide) (by decide)⟩

end Scorecard
